import Mathlib

/-!
Verification of the GGUF metadata-extraction client and enrichment pipeline
of the ai-model-tracker repository (src/gguf_parser.py, src/model_scraper.py).

The Python source is shallowly embedded: dictionaries with a fixed set of
read paths become structures of optional fields, the external parser process
is a parameter (an environment describing, per attempt, whether the binary
exists and how the spawned process behaves), exceptions become an explicit
`Except PyError` layer, and Python `round(x, n)` / format specifiers become
exact rational round-half-to-even.
-/

namespace AIModelTracker

/-- Python round-half-to-even of a rational to the nearest integer
(CPython `round` on a value exactly representable). -/
def roundHalfEven (x : ℚ) : ℤ :=
  let n := Int.floor x
  let frac := x - n
  if frac < 1/2 then n
  else if 1/2 < frac then n + 1
  else if n % 2 = 0 then n else n + 1

/-- Python `round(x, 2)`: round to 2 decimal places, ties to even. -/
def pyRound2 (x : ℚ) : ℚ :=
  (roundHalfEven (x * 100) : ℚ) / 100

/-- Python format specifier `"{:.1f}"` on a rational value: one decimal
place, ties to even. -/
def fmtFixed1 (x : ℚ) : String :=
  let t := roundHalfEven (x * 10)
  if t < 0 then
    "-" ++ toString ((-t) / 10) ++ "." ++ toString ((-t) % 10)
  else
    toString (t / 10) ++ "." ++ toString (t % 10)

/-- Python format specifier `"{:.0f}"` on a rational value. -/
def fmtFixed0 (x : ℚ) : String :=
  toString (roundHalfEven x)

/-- Python `needle in hay` substring test on strings. -/
def strContains (hay needle : String) : Bool :=
  decide (needle.data <:+: hay.data)

/-- ASCII lowercasing of one character (Python `str.lower` acts
per-character on the ASCII filenames involved). -/
def lowerChar (c : Char) : Char :=
  if 65 ≤ c.toNat ∧ c.toNat ≤ 90 then Char.ofNat (c.toNat + 32) else c

/-- Python `s.lower()` on an ASCII string. -/
def pyLower (s : String) : String := ⟨s.data.map lowerChar⟩

/-- Python `a or b` on two optional strings (`None` and `""` are falsy);
used for the architecture fallback in `_extract_metadata`. -/
def pyOrStr (a b : Option String) : Option String :=
  match a with
  | some s => if s = "" then b else some s
  | none => b

/-! ## Raw tool output (the paths `_extract_metadata` reads) -/

/-- One entry of `estimate.items[0].vrams`. -/
structure RawVram where
  nonuma : Option Int
deriving DecidableEq

/-- The `estimate.items[0].ram` object. -/
structure RawRam where
  nonuma : Option Int
deriving DecidableEq

/-- One entry of `estimate.items`. -/
structure RawItem where
  vrams : Option (List RawVram)
  ram : Option RawRam
  fullOffloaded : Option Bool
deriving DecidableEq

/-- The `estimate` block. -/
structure RawEstimate where
  items : Option (List RawItem)
  flashAttention : Option Bool
deriving DecidableEq

/-- The `metadata` block. -/
structure RawMetadata where
  architecture : Option String
  fileTypeDetail : Option String
  parameters : Option Int
  fileSize : Option Int
  bitsPerWeight : Option ℚ
  name : Option String
deriving DecidableEq

/-- The `architecture` block. -/
structure RawArchitecture where
  architecture : Option String
  maximumContextLength : Option Int
  embeddingLength : Option Int
deriving DecidableEq

/-- Raw JSON tree from the external parser, restricted to the read paths. -/
structure RawToolOutput where
  metadata : Option RawMetadata
  architecture : Option RawArchitecture
  estimate : Option RawEstimate
deriving DecidableEq

def emptyMetadata : RawMetadata := ⟨none, none, none, none, none, none⟩

def emptyArchitecture : RawArchitecture := ⟨none, none, none⟩

def emptyEstimate : RawEstimate := ⟨none, none⟩

def emptyRam : RawRam := ⟨none⟩

/-! ## Normalized metadata record and `_extract_metadata` -/

/-- The normalized result of `_extract_metadata`. -/
structure ModelMetadataRecord where
  architecture : Option String
  quantization : Option String
  parameters : Option Int
  parameters_str : String
  context_length : Option Int
  embedding_length : Option Int
  file_size_bytes : Option Int
  file_size_gb : Option ℚ
  bits_per_weight : Option ℚ
  vram_required_gb : Option ℚ
  ram_required_gb : Option ℚ
  model_name : Option String
  flash_attention : Bool
  fully_offloadable : Bool
deriving DecidableEq

/-- Python exception kinds distinguished by `_runParser`'s handlers. -/
inductive PyError where
  | timeoutExpired
  | jsonDecodeError
  | indexError
  | otherError
deriving DecidableEq

/-- `vram_bytes` computation of `_extract_metadata` (lines 172-176):
first `vrams` entry of the first estimate item, `nonuma` field, guarded by
Python truthiness of `items` and `vrams`. -/
def vramBytesOf (estimate : RawEstimate) : Int :=
  match estimate.items with
  | some (item :: _) =>
    match item.vrams with
    | some (v :: _) => v.nonuma.getD 0
    | _ => 0
  | _ => 0

/-- `ram_bytes` computation of `_extract_metadata` (lines 180-183). -/
def ramBytesOf (estimate : RawEstimate) : Int :=
  match estimate.items with
  | some (item :: _) => (item.ram.getD emptyRam).nonuma.getD 0
  | _ => 0

/-- `estimate.get("items", [\x7b\x7d])[0].get("fullOffloaded", False)`
(line 209): indexing `[0]` raises IndexError when `items` is present and
empty. -/
def fullyOffloadedOf (estimate : RawEstimate) : Except PyError Bool :=
  match estimate.items with
  | none => .ok false
  | some [] => .error .indexError
  | some (item :: _) => .ok (item.fullOffloaded.getD false)

/-- Parameter-count display formatting of `_extract_metadata`
(lines 187-193). -/
def formatParams (params : Int) : String :=
  if params ≥ 1000000000 then fmtFixed1 ((params : ℚ) / 1000000000) ++ "B"
  else if params ≥ 1000000 then fmtFixed0 ((params : ℚ) / 1000000) ++ "M"
  else toString params

/-- The dict literal returned by `_extract_metadata` (lines 195-210),
parameterized by the already-computed `fully_offloadable` value. -/
def normalizedRecord (raw : RawToolOutput) (fullOff : Bool) : ModelMetadataRecord :=
  let metadata := raw.metadata.getD emptyMetadata
  let architecture := raw.architecture.getD emptyArchitecture
  let estimate := raw.estimate.getD emptyEstimate
  let vram_bytes := vramBytesOf estimate
  let vram_gb : Option ℚ :=
    if vram_bytes ≠ 0 then some (pyRound2 ((vram_bytes : ℚ) / 1024 ^ 3)) else none
  let ram_bytes := ramBytesOf estimate
  let ram_gb : Option ℚ :=
    if ram_bytes ≠ 0 then some (pyRound2 ((ram_bytes : ℚ) / 1024 ^ 3)) else none
  let params := metadata.parameters.getD 0
  {
      architecture := pyOrStr metadata.architecture architecture.architecture
      quantization := metadata.fileTypeDetail
      parameters := metadata.parameters
      parameters_str := formatParams params
      context_length := architecture.maximumContextLength
      embedding_length := architecture.embeddingLength
      file_size_bytes := metadata.fileSize
      file_size_gb :=
        match metadata.fileSize with
        | some b => if b ≠ 0 then some (pyRound2 ((b : ℚ) / 1024 ^ 3)) else none
        | none => none
      bits_per_weight :=
        match metadata.bitsPerWeight with
        | some w => if w ≠ 0 then some (pyRound2 w) else none
        | none => none
      vram_required_gb := vram_gb
      ram_required_gb := ram_gb
      model_name := metadata.name
      flash_attention := estimate.flashAttention.getD false
      fully_offloadable := fullOff }

/-- `_extract_metadata` (gguf_parser.py lines 157-210): the only statement
that can raise is the `fully_offloadable` index access; every other access
uses `.get` with a default. -/
def extractMetadata (raw : RawToolOutput) : Except PyError ModelMetadataRecord :=
  match fullyOffloadedOf (raw.estimate.getD emptyEstimate) with
  | .error e => .error e
  | .ok fullOff => .ok (normalizedRecord raw fullOff)

/-! ## Single attempt (`_runParser`) -/

/-- What the spawned process produced on stdout: either text that
`json.loads` rejects, or a parsed tree. -/
inductive StdoutData where
  | malformed
  | valid (raw : RawToolOutput)
deriving DecidableEq

/-- Behaviour of one subprocess invocation of the external tool. -/
inductive ToolBehavior where
  | completes (returncode : Int) (stdout : StdoutData) (stderr : String)
  | timesOut
  | raises
deriving DecidableEq

/-- Environment of one attempt: whether the parser binary exists at its
install path, and what the spawned process would do. -/
structure AttemptEnv where
  parserExists : Bool
  behavior : ToolBehavior
deriving DecidableEq

/-- Result of one `_runParser` call: a normalized record, the
`\x7b"_error": "not_found"\x7d` marker dict, or `None`. -/
inductive ParseResult where
  | success (rec : ModelMetadataRecord)
  | notFoundMarker (msg : String)
  | failure
deriving DecidableEq

/-- Body of the `try` block of `_runParser` (lines 126-144), with the
exceptions it can raise made explicit. -/
def runParserBody (env : AttemptEnv) : Except PyError ParseResult :=
  match env.behavior with
  | .timesOut => .error .timeoutExpired
  | .raises => .error .otherError
  | .completes rc out stderr =>
    if rc ≠ 0 then
      if strContains stderr "404" then .ok (.notFoundMarker stderr)
      else .ok .failure
    else
      match out with
      | .malformed => .error .jsonDecodeError
      | .valid raw =>
        match extractMetadata raw with
        | .error e => .error e
        | .ok r => .ok (.success r)

/-- `_runParser` (lines 110-154): the binary-existence pre-check, the
`try` body, and the three `except` handlers, each returning `None`. -/
def runParser (env : AttemptEnv) : Except PyError ParseResult :=
  if !env.parserExists then .ok .failure
  else
    match runParserBody env with
    | .ok r => .ok r
    | .error .timeoutExpired => .ok .failure
    | .error .jsonDecodeError => .ok .failure
    | .error _ => .ok .failure

/-! ## Retry loop (`_run_parser_with_retry`) and entry points -/

def MAX_RETRIES : ℕ := 3

def RETRY_DELAY : ℕ := 2

/-- Observable outcome of a retry-wrapped call: the returned value, how
many `_runParser` attempts were made, and the `time.sleep` durations
performed between attempts, in order. -/
structure RetryTrace where
  result : Option ModelMetadataRecord
  attemptsMade : ℕ
  sleeps : List ℕ
deriving DecidableEq

/-- The `for attempt in range(retries)` loop of `_run_parser_with_retry`
(lines 88-107), with `attempt` the index of the current attempt,
`remaining` the iterations left and `delay` the current backoff delay.
The environment gives the behaviour of the i-th attempt. -/
def runRetryAux (env : ℕ → AttemptEnv) (attempt remaining delay : ℕ) :
    Except PyError RetryTrace :=
  match remaining with
  | 0 => .ok ⟨none, 0, []⟩
  | r + 1 =>
    match runParser (env attempt) with
    | .error e => .error e
    | .ok (.success rec) => .ok ⟨some rec, 1, []⟩
    | .ok (.notFoundMarker _) => .ok ⟨none, 1, []⟩
    | .ok .failure =>
      if r = 0 then .ok ⟨none, 1, []⟩
      else
        match runRetryAux env (attempt + 1) r (delay * 2) with
        | .error e => .error e
        | .ok t => .ok ⟨t.result, t.attemptsMade + 1, delay :: t.sleeps⟩

/-- `_run_parser_with_retry` (lines 77-107): run the loop from attempt 0
with the initial RETRY_DELAY. -/
def run_parser_with_retry (env : ℕ → AttemptEnv) (retries : ℕ) :
    Except PyError RetryTrace :=
  runRetryAux env 0 retries RETRY_DELAY

/-- CLI locator arguments built by `parse_gguf_from_hf` (line 46). -/
def hfArgs (repo filename : String) : List String :=
  ["--hf-repo", repo, "--hf-file", filename]

/-- CLI locator arguments built by `parse_gguf_from_ms` (line 61). -/
def msArgs (repo filename : String) : List String :=
  ["--ms-repo", repo, "--ms-file", filename]

/-- `parse_gguf_from_hf` (lines 34-46).  The world maps the CLI argument
list to the per-attempt environment (the full command is the parser path,
these arguments, and `--json`). -/
def parse_gguf_from_hf (world : List String → ℕ → AttemptEnv)
    (repo filename : String) (retries : ℕ) : Except PyError RetryTrace :=
  run_parser_with_retry (world (hfArgs repo filename)) retries

/-- `parse_gguf_from_ms` (lines 49-61). -/
def parse_gguf_from_ms (world : List String → ℕ → AttemptEnv)
    (repo filename : String) (retries : ℕ) : Except PyError RetryTrace :=
  run_parser_with_retry (world (msArgs repo filename)) retries

/-- `parse_gguf_local` (lines 64-74): single attempt, no retry. -/
def parse_gguf_local (world : List String → ℕ → AttemptEnv)
    (filepath : String) : Except PyError RetryTrace :=
  run_parser_with_retry (world ["--path", filepath]) 1

/-! ## Enrichment pipeline (model_scraper.py) -/

/-- Preference order of quantization-scheme substrings
(model_scraper.py line 285). -/
def preferences : List String :=
  ["q4_k_m", "q4_k_s", "q5_k_m", "q5_k_s", "q4_0", "q5_0"]

/-- `pick_representative_gguf_file` (model_scraper.py lines 276-293):
empty listing yields nothing; otherwise the first preference substring in
order that some lowercased filename contains selects the first such
filename; with no match, the first filename. -/
def pick_representative_gguf_file (gguf_files : List String) : Option String :=
  if gguf_files.isEmpty then none
  else
    match preferences.findSome?
        (fun pref => gguf_files.find? (fun f => strContains (pyLower f) pref)) with
    | some f => some f
    | none => gguf_files.head?

/-- The model hub a model came from. -/
inductive Source where
  | huggingface
  | modelscope
deriving DecidableEq

/-- A model dictionary as seen by `enrich_model_with_gguf_metadata`: the
GGUF-related keys the function may set (outer `Option` is key presence,
inner is the stored value, which itself may be Python `None`), plus the
URL it reads and the remaining keys it never touches. -/
structure ModelDict where
  url : String
  is_gguf : Option Bool
  quantization : Option (Option String)
  gguf_architecture : Option (Option String)
  context_length : Option (Option Int)
  parameter_count : Option (Option Int)
  vram_required_gb : Option (Option ℚ)
  bits_per_weight : Option (Option ℚ)
  gguf_file : Option String
  otherFields : List (String × String)
deriving DecidableEq

/-- Repo-id extraction from the model URL (model_scraper.py lines 309-316):
strip the hub prefix; for ModelScope also `rstrip` trailing slashes. -/
def repoIdOf (url : String) (source : Source) : String :=
  match source with
  | .huggingface => url.replace "https://huggingface.co/" ""
  | .modelscope =>
    (url.replace "https://modelscope.cn/models/" "").dropRightWhile (fun c => c = '/')

/-- Which locator arguments the chosen `parse_fn` passes to the tool. -/
def locatorArgs (source : Source) (repo file : String) : List String :=
  match source with
  | .huggingface => hfArgs repo file
  | .modelscope => msArgs repo file

/-- `enrich_model_with_gguf_metadata` (model_scraper.py lines 296-345).
`available` is the module-level GGUF_PARSER_AVAILABLE flag, `getFiles` the
file-listing collaborator for the chosen source, and `world` drives the
parser subprocess as in `run_parser_with_retry`; `parse_fn` is called with
its default retry count MAX_RETRIES.  The `if not gguf_file:` guard on the
picked filename (line 325) is a Python truthiness test, so it also bails
out when the picked filename is the empty string. -/
def enrich_model_with_gguf_metadata (available : Bool)
    (getFiles : String → List String) (world : List String → ℕ → AttemptEnv)
    (model_dict : ModelDict) (source : Source) : Except PyError ModelDict :=
  if !available then .ok model_dict
  else
    let repo_id := repoIdOf model_dict.url source
    let gguf_files := getFiles repo_id
    if gguf_files.isEmpty then .ok model_dict
    else
      match pick_representative_gguf_file gguf_files with
      | none => .ok model_dict
      | some gguf_file =>
        if gguf_file = "" then .ok model_dict
        else
        match run_parser_with_retry (world (locatorArgs source repo_id gguf_file))
            MAX_RETRIES with
        | .error e => .error e
        | .ok t =>
          match t.result with
          | some md => .ok { model_dict with
              is_gguf := some true
              quantization := some md.quantization
              gguf_architecture := some md.architecture
              context_length := some md.context_length
              parameter_count := some md.parameters
              vram_required_gb := some md.vram_required_gb
              bits_per_weight := some md.bits_per_weight
              gguf_file := some gguf_file }
          | none => .ok { model_dict with
              is_gguf := some true
              gguf_file := some gguf_file }

/-! ## Helper lemmas: the single attempt and the retry loop -/

theorem runParser_isOk (env : AttemptEnv) : ∃ r, runParser env = .ok r := by
  obtain ⟨pe, beh⟩ := env
  cases pe
  · exact ⟨.failure, rfl⟩
  · unfold runParser
    cases h : runParserBody ⟨true, beh⟩ with
    | ok r => exact ⟨r, by simp [h]⟩
    | error e => cases e <;> exact ⟨.failure, by simp [h]⟩

theorem runRetryAux_isOk (env : ℕ → AttemptEnv) :
    ∀ remaining attempt delay, ∃ t, runRetryAux env attempt remaining delay = .ok t := by
  intro remaining
  induction remaining with
  | zero => intro a d; exact ⟨⟨none, 0, []⟩, rfl⟩
  | succ r ih =>
    intro a d
    obtain ⟨p, hp⟩ := runParser_isOk (env a)
    cases p with
    | success rec => exact ⟨⟨some rec, 1, []⟩, by simp [runRetryAux, hp]⟩
    | notFoundMarker m => exact ⟨⟨none, 1, []⟩, by simp [runRetryAux, hp]⟩
    | failure =>
      by_cases hr : r = 0
      · subst hr; exact ⟨⟨none, 1, []⟩, by simp [runRetryAux, hp]⟩
      · obtain ⟨t, ht⟩ := ih (a + 1) (d * 2)
        exact ⟨⟨t.result, t.attemptsMade + 1, d :: t.sleeps⟩,
          by simp [runRetryAux, hp, hr, ht]⟩

theorem runRetryAux_attempts_le (env : ℕ → AttemptEnv) :
    ∀ remaining attempt delay t,
      runRetryAux env attempt remaining delay = .ok t → t.attemptsMade ≤ remaining := by
  intro remaining
  induction remaining with
  | zero =>
    intro a d t h
    simp only [runRetryAux, Except.ok.injEq] at h
    simp [← h]
  | succ r ih =>
    intro a d t h
    simp only [runRetryAux] at h
    cases hp : runParser (env a) with
    | error e => simp [hp] at h
    | ok p =>
      cases p with
      | success rec => simp [hp, Except.ok.injEq] at h; simp [← h]
      | notFoundMarker m => simp [hp, Except.ok.injEq] at h; simp [← h]
      | failure =>
        by_cases hr : r = 0
        · subst hr; simp [hp, Except.ok.injEq] at h; simp [← h]
        · simp only [hp, hr, if_neg, ite_false] at h
          cases ht : runRetryAux env (a + 1) r (d * 2) with
          | error e => simp [ht] at h
          | ok t' =>
            simp only [ht, Except.ok.injEq] at h
            have := ih (a + 1) (d * 2) t' ht
            simp [← h]
            omega

theorem cons_geom (d k : ℕ) :
    d :: (List.range k).map (fun j => d * 2 * 2 ^ j) =
      (List.range (k + 1)).map (fun j => d * 2 ^ j) := by
  have hf : (fun j => d * 2 * 2 ^ j) = (fun j => d * 2 ^ j) ∘ Nat.succ := by
    funext j
    simp only [Function.comp_apply, pow_succ]
    ring
  rw [List.range_succ_eq_map, List.map_cons, List.map_map, hf]
  simp

theorem runRetryAux_all_transient (env : ℕ → AttemptEnv) :
    ∀ remaining attempt delay, 0 < remaining →
      (∀ i, i < remaining → runParser (env (attempt + i)) = .ok .failure) →
      runRetryAux env attempt remaining delay =
        .ok ⟨none, remaining, (List.range (remaining - 1)).map (fun j => delay * 2 ^ j)⟩ := by
  intro remaining
  induction remaining with
  | zero => intro a d h; omega
  | succ r ih =>
    intro a d _ htrans
    have h0 : runParser (env a) = .ok .failure := by
      simpa using htrans 0 (by omega)
    by_cases hr : r = 0
    · subst hr
      simp [runRetryAux, h0]
    · have ih' := ih (a + 1) (d * 2) (Nat.pos_of_ne_zero hr) (fun i hi => by
        have h1 := htrans (i + 1) (by omega)
        have h2 : a + (i + 1) = a + 1 + i := by omega
        rwa [h2] at h1)
      have hr1 : r - 1 + 1 = r := by omega
      have hl : d :: (List.range (r - 1)).map (fun j => d * 2 * 2 ^ j)
          = (List.range r).map (fun j => d * 2 ^ j) := by
        rw [← hr1]; exact cons_geom d (r - 1)
      simp only [runRetryAux, h0, hr, ite_false, ih']
      rw [hl]
      simp

theorem runRetryAux_first_success (env : ℕ → AttemptEnv) :
    ∀ k remaining attempt delay rec, k < remaining →
      (∀ j, j < k → runParser (env (attempt + j)) = .ok .failure) →
      runParser (env (attempt + k)) = .ok (.success rec) →
      runRetryAux env attempt remaining delay =
        .ok ⟨some rec, k + 1, (List.range k).map (fun j => delay * 2 ^ j)⟩ := by
  intro k
  induction k with
  | zero =>
    intro remaining a d rec hk _ hsucc
    obtain ⟨r', rfl⟩ : ∃ r', remaining = r' + 1 := ⟨remaining - 1, by omega⟩
    simp only [Nat.add_zero] at hsucc
    simp [runRetryAux, hsucc]
  | succ k ih =>
    intro remaining a d rec hk htrans hsucc
    obtain ⟨r', rfl⟩ : ∃ r', remaining = r' + 1 := ⟨remaining - 1, by omega⟩
    have h0 : runParser (env a) = .ok .failure := by
      simpa using htrans 0 (by omega)
    have hr' : r' ≠ 0 := by omega
    have ih' := ih r' (a + 1) (d * 2) rec (by omega)
      (fun j hj => by
        have h1 := htrans (j + 1) (by omega)
        have h2 : a + (j + 1) = a + 1 + j := by omega
        rwa [h2] at h1)
      (by
        have h2 : a + (k + 1) = a + 1 + k := by omega
        rwa [h2] at hsucc)
    simp only [runRetryAux, h0, hr', ite_false, ih']
    rw [cons_geom d k]

theorem runRetryAux_notFound (env : ℕ → AttemptEnv) (remaining attempt delay : ℕ)
    (msg : String) (hr : 0 < remaining)
    (h : runParser (env attempt) = .ok (.notFoundMarker msg)) :
    runRetryAux env attempt remaining delay = .ok ⟨none, 1, []⟩ := by
  obtain ⟨r', rfl⟩ : ∃ r', remaining = r' + 1 := ⟨remaining - 1, by omega⟩
  simp [runRetryAux, h]

/-! ## Concrete environments used as witnesses -/

/-- An attempt in which the tool exits nonzero without a 404 signal:
a transient, retryable failure. -/
def envTransient : AttemptEnv := ⟨true, .completes 1 .malformed "server error"⟩

/-- A raw tool output with none of the read paths present. -/
def rawEmpty : RawToolOutput := ⟨none, none, none⟩

/-- An attempt in which the tool exits zero with parseable output. -/
def envSuccess : AttemptEnv := ⟨true, .completes 0 (.valid rawEmpty) ""⟩

theorem envTransient_failure : runParser envTransient = .ok .failure := rfl

theorem envSuccess_success :
    runParser envSuccess = .ok (.success (normalizedRecord rawEmpty false)) := rfl

/-- C1: a retry-wrapped remote extraction with max_attempts = n makes at
most n attempts; with all attempts before the k-th transient and the k-th
successful it returns that record after k+1 attempts, having slept the
exponential-backoff delays 2, 4, 8, ... between attempts; with every
attempt transient it returns an absence result after the n-th attempt;
local extraction always makes exactly one attempt and never sleeps; and a
call that fails transiently twice and succeeds on the third attempt
returns the record having slept 2 then 4 time-units. -/
theorem retry_policy_backoff (env : ℕ → AttemptEnv) (n : ℕ) :
    (∀ t, run_parser_with_retry env n = .ok t → t.attemptsMade ≤ n)
    ∧ (0 < n → (∀ i, i < n → runParser (env i) = .ok .failure) →
        run_parser_with_retry env n =
          .ok ⟨none, n, (List.range (n - 1)).map (fun j => 2 * 2 ^ j)⟩)
    ∧ (∀ k rec, k < n → (∀ j, j < k → runParser (env j) = .ok .failure) →
        runParser (env k) = .ok (.success rec) →
        run_parser_with_retry env n =
          .ok ⟨some rec, k + 1, (List.range k).map (fun j => 2 * 2 ^ j)⟩)
    ∧ (∀ (world : List String → ℕ → AttemptEnv) (filepath : String) t,
        parse_gguf_local world filepath = .ok t →
        t.attemptsMade = 1 ∧ t.sleeps = [])
    ∧ (∀ rec, runParser (env 0) = .ok .failure → runParser (env 1) = .ok .failure →
        runParser (env 2) = .ok (.success rec) →
        run_parser_with_retry env 3 = .ok ⟨some rec, 3, [2, 4]⟩) := by
  refine ⟨?_, ?_, ?_, ?_, ?_⟩
  · intro t h
    exact runRetryAux_attempts_le env n 0 RETRY_DELAY t h
  · intro hn htrans
    have := runRetryAux_all_transient env n 0 RETRY_DELAY hn (fun i hi => by
      simpa using htrans i hi)
    simpa [run_parser_with_retry, RETRY_DELAY] using this
  · intro k rec hk htrans hsucc
    have := runRetryAux_first_success env k n 0 RETRY_DELAY rec hk
      (fun j hj => by simpa using htrans j hj) (by simpa using hsucc)
    simpa [run_parser_with_retry, RETRY_DELAY] using this
  · intro world filepath t h
    unfold parse_gguf_local run_parser_with_retry at h
    cases hp : runParser (world ["--path", filepath] 0) with
    | error e => simp [runRetryAux, hp] at h
    | ok p =>
      cases p with
      | success rec => simp [runRetryAux, hp, Except.ok.injEq] at h; simp [← h]
      | notFoundMarker m => simp [runRetryAux, hp, Except.ok.injEq] at h; simp [← h]
      | failure => simp [runRetryAux, hp, Except.ok.injEq] at h; simp [← h]
  · intro rec h0 h1 h2
    have := runRetryAux_first_success env 2 3 0 RETRY_DELAY rec (by omega)
      (fun j hj => by
        interval_cases j
        · simpa using h0
        · simpa using h1)
      (by simpa using h2)
    simpa [run_parser_with_retry, RETRY_DELAY, List.range_succ] using this

/-- C1 witness: two transient attempts followed by a successful one, at
max_attempts 3, yield the successful record after sleeping 2 then 4. -/
theorem retry_policy_backoff_witness :
    run_parser_with_retry (fun i => if i < 2 then envTransient else envSuccess) 3 =
      .ok ⟨some (normalizedRecord rawEmpty false), 3, [2, 4]⟩ :=
  (retry_policy_backoff (fun i => if i < 2 then envTransient else envSuccess) 3).2.2.2.2
    (normalizedRecord rawEmpty false)
    (by rw [if_pos (by omega)]; exact envTransient_failure)
    (by rw [if_pos (by omega)]; exact envTransient_failure)
    (by rw [if_neg (by omega)]; exact envSuccess_success)

/-- C2: when the first attempt's process exits nonzero with "404" in its
error stream, exactly one attempt (hence, the binary being present, exactly
one subprocess invocation) is made, with no backoff sleep, and the call
returns an absence result. -/
theorem notfound_stops_immediately (env : ℕ → AttemptEnv) (rc : Int)
    (out : StdoutData) (err : String) (n : ℕ) (hn : 0 < n)
    (h0 : env 0 = ⟨true, .completes rc out err⟩) (hrc : rc ≠ 0)
    (h404 : strContains err "404" = true) :
    run_parser_with_retry env n = .ok ⟨none, 1, []⟩ := by
  have hp : runParser (env 0) = .ok (.notFoundMarker err) := by
    rw [h0]
    simp [runParser, runParserBody, hrc, h404]
  exact runRetryAux_notFound env n 0 RETRY_DELAY err hn hp

/-- C2 witness: a 404 error stream on the first of 3 allowed attempts ends
the call at once with an absence result. -/
theorem notfound_stops_immediately_witness :
    run_parser_with_retry (fun _ => ⟨true, .completes 1 .malformed "HTTP 404 Not Found"⟩) 3 =
      .ok ⟨none, 1, []⟩ :=
  notfound_stops_immediately (fun _ => ⟨true, .completes 1 .malformed "HTTP 404 Not Found"⟩)
    1 .malformed "HTTP 404 Not Found" 3 (by omega) rfl (by omega) rfl

/-- C7: whatever the external tool does on each attempt (nonzero exit with
or without the not-found signal, timeout, malformed JSON, missing binary,
or an unexpected exception), every entry point of the extraction client
returns an `Except.ok` value — a populated record or an absence result —
and never propagates an exception. -/
theorem extraction_client_never_raises
    (world : List String → ℕ → AttemptEnv) (repo filename filepath : String)
    (retries : ℕ) :
    (∃ t, parse_gguf_from_hf world repo filename retries = .ok t)
    ∧ (∃ t, parse_gguf_from_ms world repo filename retries = .ok t)
    ∧ (∃ t, parse_gguf_local world filepath = .ok t) :=
  ⟨runRetryAux_isOk (world (hfArgs repo filename)) retries 0 RETRY_DELAY,
   runRetryAux_isOk (world (msArgs repo filename)) retries 0 RETRY_DELAY,
   runRetryAux_isOk (world ["--path", filepath]) 1 0 RETRY_DELAY⟩

/-- C10: when the tool exits zero with valid JSON whose estimate items list
is present but empty, normalization raises an IndexError, the attempt-level
handler absorbs it into an absence result, and the retry loop treats it as
transient: it retries with backoff and never produces a record. -/
theorem empty_items_list_is_transient (raw : RawToolOutput)
    (est : RawEstimate) (s : String) (n : ℕ)
    (hest : raw.estimate = some est) (hitems : est.items = some [])
    (hn : 0 < n) :
    extractMetadata raw = .error .indexError
    ∧ runParser ⟨true, .completes 0 (.valid raw) s⟩ = .ok .failure
    ∧ run_parser_with_retry (fun _ => ⟨true, .completes 0 (.valid raw) s⟩) n =
        .ok ⟨none, n, (List.range (n - 1)).map (fun j => 2 * 2 ^ j)⟩ := by
  have hex : extractMetadata raw = .error .indexError := by
    simp [extractMetadata, fullyOffloadedOf, hest, hitems]
  have hrp : runParser ⟨true, .completes 0 (.valid raw) s⟩ = .ok .failure := by
    simp [runParser, runParserBody, hex]
  refine ⟨hex, hrp, ?_⟩
  have := runRetryAux_all_transient (fun _ => ⟨true, .completes 0 (.valid raw) s⟩)
    n 0 RETRY_DELAY hn (fun i _ => hrp)
  simpa [run_parser_with_retry, RETRY_DELAY] using this

/-- C10 witness: a concrete output with an empty estimate items list makes
the attempt fail transiently; two allowed attempts both fail, with one
backoff sleep of 2. -/
theorem empty_items_list_is_transient_witness :
    extractMetadata ⟨none, none, some ⟨some [], none⟩⟩ = .error .indexError
    ∧ runParser ⟨true, .completes 0 (.valid ⟨none, none, some ⟨some [], none⟩⟩) ""⟩ =
        .ok .failure
    ∧ run_parser_with_retry
        (fun _ => ⟨true, .completes 0 (.valid ⟨none, none, some ⟨some [], none⟩⟩) ""⟩) 2 =
        .ok ⟨none, 2, (List.range 1).map (fun j => 2 * 2 ^ j)⟩ :=
  empty_items_list_is_transient ⟨none, none, some ⟨some [], none⟩⟩ ⟨some [], none⟩
    "" 2 rfl rfl (by omega)

/-! ## File selection (C3) -/

/-- The earliest preference substring that some lowercased filename of the
listing contains. -/
def firstMatchedPref (files : List String) : Option String :=
  preferences.find? (fun p => files.any (fun f => strContains (pyLower f) p))

theorem any_eq_find_isSome {α : Type} (l : List α) (q : α → Bool) :
    l.any q = (l.find? q).isSome := by
  induction l with
  | nil => rfl
  | cons a l ih => by_cases h : q a <;> simp [List.find?_cons, h, ih]

theorem findSome?_eq_of_find?_eq_some {α β : Type} (l : List α) (g : α → Option β) :
    ∀ p, l.find? (fun a => (g a).isSome) = some p → l.findSome? g = g p := by
  induction l with
  | nil => intro p h; simp at h
  | cons a l ih =>
    intro p h
    cases hga : (g a).isSome
    · rw [List.find?_cons_of_neg _ (by simp [hga])] at h
      rw [List.findSome?_cons]
      cases hg : g a with
      | some b => rw [hg] at hga; simp at hga
      | none => exact ih p h
    · rw [List.find?_cons_of_pos _ (by simp [hga])] at h
      cases h
      rw [List.findSome?_cons]
      cases hg : g a with
      | some b => rfl
      | none => rw [hg] at hga; simp at hga

theorem findSome?_eq_none_of_find?_eq_none {α β : Type} (l : List α) (g : α → Option β)
    (h : l.find? (fun a => (g a).isSome) = none) : l.findSome? g = none := by
  induction l with
  | nil => rfl
  | cons a l ih =>
    rw [List.find?_cons] at h
    rw [List.findSome?_cons]
    cases hg : g a with
    | some b => simp [hg] at h
    | none =>
      apply ih
      simpa [hg] using h

/-- C3: an empty listing yields nothing; otherwise the result is the first
filename (in listing order) containing, case-insensitively, the earliest
preference substring (scanning q4_k_m, q4_k_s, q5_k_m, q5_k_s, q4_0, q5_0
in order) matched by any filename; with no match at all, the first
filename; and on the concrete listing of the claim the q4_k_m file wins
regardless of position. -/
theorem pick_representative_file_spec (files : List String) :
    (files = [] → pick_representative_gguf_file files = none)
    ∧ (∀ p, firstMatchedPref files = some p →
        pick_representative_gguf_file files =
          files.find? (fun f => strContains (pyLower f) p))
    ∧ (files ≠ [] → firstMatchedPref files = none →
        pick_representative_gguf_file files = files.head?)
    ∧ pick_representative_gguf_file ["m.Q4_0.gguf", "m.Q5_K_M.gguf", "m.Q4_K_M.gguf"]
        = some "m.Q4_K_M.gguf" := by
  refine ⟨?_, ?_, ?_, by decide⟩
  · rintro rfl; rfl
  · intro p hp
    have hne : files ≠ [] := by
      rintro rfl
      rw [firstMatchedPref] at hp
      rw [List.find?_eq_none.mpr (by intro x _; simp)] at hp
      exact Option.noConfusion hp
    have hfun : (fun p => files.any (fun f => strContains (pyLower f) p)) =
        (fun p => (files.find? (fun f => strContains (pyLower f) p)).isSome) := by
      funext q
      exact any_eq_find_isSome files (fun f => strContains (pyLower f) q)
    have hp' : preferences.find?
        (fun p => (files.find? (fun f => strContains (pyLower f) p)).isSome) = some p := by
      rw [firstMatchedPref, hfun] at hp
      exact hp
    have hfs := findSome?_eq_of_find?_eq_some preferences
      (fun p => files.find? (fun f => strContains (pyLower f) p)) p hp'
    have hsome : (files.find? (fun f => strContains (pyLower f) p)).isSome := by
      have := List.find?_some hp'
      simpa using this
    obtain ⟨f, hf⟩ := Option.isSome_iff_exists.mp hsome
    rw [pick_representative_gguf_file, if_neg (by simp [hne])]
    rw [hfs]
    simp [hf]
  · intro hne hp
    have hfun : (fun p => files.any (fun f => strContains (pyLower f) p)) =
        (fun p => (files.find? (fun f => strContains (pyLower f) p)).isSome) := by
      funext q
      exact any_eq_find_isSome files (fun f => strContains (pyLower f) q)
    have hp' : preferences.find?
        (fun p => (files.find? (fun f => strContains (pyLower f) p)).isSome) = none := by
      rw [firstMatchedPref, hfun] at hp
      exact hp
    have hfs := findSome?_eq_none_of_find?_eq_none preferences
      (fun p => files.find? (fun f => strContains (pyLower f) p)) hp'
    rw [pick_representative_gguf_file, if_neg (by simp [hne])]
    rw [hfs]

/-- C3 witness: on a listing whose earliest matched preference tier is
q4_k_s, the pick is the first filename containing it. -/
theorem pick_representative_file_spec_witness :
    pick_representative_gguf_file ["a.Q5_0.gguf", "b.Q4_K_S.gguf"] =
      ["a.Q5_0.gguf", "b.Q4_K_S.gguf"].find?
        (fun f => strContains (pyLower f) "q4_k_s") :=
  (pick_representative_file_spec ["a.Q5_0.gguf", "b.Q4_K_S.gguf"]).2.1 "q4_k_s" (by decide)

/-! ## Field-level facts about normalization (C5, C6, C8) -/

theorem extractMetadata_ok_elim (raw : RawToolOutput) (rec : ModelMetadataRecord)
    (h : extractMetadata raw = .ok rec) :
    ∃ fo, fullyOffloadedOf (raw.estimate.getD emptyEstimate) = .ok fo
      ∧ rec = normalizedRecord raw fo := by
  unfold extractMetadata at h
  cases hfo : fullyOffloadedOf (raw.estimate.getD emptyEstimate) with
  | error e => rw [hfo] at h; exact absurd h (by simp)
  | ok fo =>
    rw [hfo] at h
    simp only [Except.ok.injEq] at h
    exact ⟨fo, rfl, h.symm⟩

theorem normalizedRecord_file_size_gb (raw : RawToolOutput) (fo : Bool) :
    (normalizedRecord raw fo).file_size_gb =
      match (raw.metadata.getD emptyMetadata).fileSize with
      | some b => if b ≠ 0 then some (pyRound2 ((b : ℚ) / 1024 ^ 3)) else none
      | none => none := rfl

theorem normalizedRecord_bits_per_weight (raw : RawToolOutput) (fo : Bool) :
    (normalizedRecord raw fo).bits_per_weight =
      match (raw.metadata.getD emptyMetadata).bitsPerWeight with
      | some w => if w ≠ 0 then some (pyRound2 w) else none
      | none => none := rfl

theorem normalizedRecord_vram_required_gb (raw : RawToolOutput) (fo : Bool) :
    (normalizedRecord raw fo).vram_required_gb =
      if vramBytesOf (raw.estimate.getD emptyEstimate) ≠ 0
      then some (pyRound2 ((vramBytesOf (raw.estimate.getD emptyEstimate) : ℚ) / 1024 ^ 3))
      else none := rfl

theorem normalizedRecord_ram_required_gb (raw : RawToolOutput) (fo : Bool) :
    (normalizedRecord raw fo).ram_required_gb =
      if ramBytesOf (raw.estimate.getD emptyEstimate) ≠ 0
      then some (pyRound2 ((ramBytesOf (raw.estimate.getD emptyEstimate) : ℚ) / 1024 ^ 3))
      else none := rfl

theorem normalizedRecord_parameters_str (raw : RawToolOutput) (fo : Bool) :
    (normalizedRecord raw fo).parameters_str =
      formatParams ((raw.metadata.getD emptyMetadata).parameters.getD 0) := rfl

/-- C5: every strictly positive byte count among file size, VRAM and RAM
is converted to round(b / 1024^3, 2) in the corresponding gb field; a zero
or missing source value yields an absent gb field, not 0.0. -/
theorem gb_conversion_fields (raw : RawToolOutput) (rec : ModelMetadataRecord)
    (h : extractMetadata raw = .ok rec) :
    (∀ b : Int, (raw.metadata.getD emptyMetadata).fileSize = some b → 0 < b →
        rec.file_size_gb = some (pyRound2 ((b : ℚ) / 1024 ^ 3)))
    ∧ ((raw.metadata.getD emptyMetadata).fileSize = some 0 ∨
        (raw.metadata.getD emptyMetadata).fileSize = none → rec.file_size_gb = none)
    ∧ (0 < vramBytesOf (raw.estimate.getD emptyEstimate) →
        rec.vram_required_gb =
          some (pyRound2 ((vramBytesOf (raw.estimate.getD emptyEstimate) : ℚ) / 1024 ^ 3)))
    ∧ (vramBytesOf (raw.estimate.getD emptyEstimate) = 0 → rec.vram_required_gb = none)
    ∧ (0 < ramBytesOf (raw.estimate.getD emptyEstimate) →
        rec.ram_required_gb =
          some (pyRound2 ((ramBytesOf (raw.estimate.getD emptyEstimate) : ℚ) / 1024 ^ 3)))
    ∧ (ramBytesOf (raw.estimate.getD emptyEstimate) = 0 → rec.ram_required_gb = none) := by
  obtain ⟨fo, hfo, rfl⟩ := extractMetadata_ok_elim raw rec h
  refine ⟨?_, ?_, ?_, ?_, ?_, ?_⟩
  · intro b hb hpos
    rw [normalizedRecord_file_size_gb, hb]
    simp [hpos.ne']
  · intro hb
    rw [normalizedRecord_file_size_gb]
    rcases hb with hb | hb <;> simp [hb]
  · intro hpos
    rw [normalizedRecord_vram_required_gb, if_pos hpos.ne']
  · intro hz
    rw [normalizedRecord_vram_required_gb, if_neg (by omega)]
  · intro hpos
    rw [normalizedRecord_ram_required_gb, if_pos hpos.ne']
  · intro hz
    rw [normalizedRecord_ram_required_gb, if_neg (by omega)]

/-- A raw output whose file size is exactly one binary gigabyte. -/
def rawOneGb : RawToolOutput :=
  ⟨some ⟨none, none, none, some 1073741824, none, none⟩, none, none⟩

/-- C5 witness: a 2^30-byte file size is converted to its rounded gb
value. -/
theorem gb_conversion_fields_witness :
    (0 : Int) < 1073741824
    ∧ (normalizedRecord rawOneGb false).file_size_gb =
        some (pyRound2 (((1073741824 : Int) : ℚ) / 1024 ^ 3)) :=
  ⟨by norm_num,
   (gb_conversion_fields rawOneGb (normalizedRecord rawOneGb false) rfl).1
     1073741824 rfl (by norm_num)⟩

/-- The property asserted by the spec invariant for a numeric field:
strictly positive whenever present. -/
def positiveOrAbsent (o : Option ℚ) : Prop := ∀ q, o = some q → 0 < q

/-- A raw output whose file size is a single byte. -/
def rawOneByte : RawToolOutput :=
  ⟨some ⟨none, none, none, some 1, none, none⟩, none, none⟩

/-- C6 counterexample: a 1-byte file size is a positive source value, yet
its rounded gb field is present and equal to 0.0 — so the record field is
neither strictly positive nor absent, refuting the stated invariant. -/
theorem gb_invariant_counterexample :
    ∃ rec, extractMetadata rawOneByte = .ok rec
      ∧ rec.file_size_gb = some 0
      ∧ ¬ positiveOrAbsent rec.file_size_gb := by
  refine ⟨normalizedRecord rawOneByte false, rfl, ?_, ?_⟩
  · rw [normalizedRecord_file_size_gb]
    show (if (1 : Int) ≠ 0 then some (pyRound2 (((1 : Int) : ℚ) / 1024 ^ 3)) else none)
        = some 0
    rw [if_pos (by omega)]
    norm_num [pyRound2, roundHalfEven]
  · intro hPA
    have h0 : (normalizedRecord rawOneByte false).file_size_gb = some 0 := by
      rw [normalizedRecord_file_size_gb]
      show (if (1 : Int) ≠ 0 then some (pyRound2 (((1 : Int) : ℚ) / 1024 ^ 3)) else none)
          = some 0
      rw [if_pos (by omega)]
      norm_num [pyRound2, roundHalfEven]
    exact absurd (hPA 0 h0) (by norm_num)

/-- C6 corrected (amended): each of the numeric fields file_size_gb,
bits_per_weight, vram_required_gb and ram_required_gb is either absent or
the 2-decimal rounding of a nonzero source value; a zero or missing source
always yields absent, never 0.0 — but strict positivity of the stored
value is not guaranteed, since a tiny positive source rounds to 0.0. -/
theorem gb_invariant_amended (raw : RawToolOutput) (rec : ModelMetadataRecord)
    (h : extractMetadata raw = .ok rec) :
    (rec.file_size_gb = none ∨ ∃ b : Int,
        (raw.metadata.getD emptyMetadata).fileSize = some b ∧ b ≠ 0 ∧
        rec.file_size_gb = some (pyRound2 ((b : ℚ) / 1024 ^ 3)))
    ∧ (rec.bits_per_weight = none ∨ ∃ w : ℚ,
        (raw.metadata.getD emptyMetadata).bitsPerWeight = some w ∧ w ≠ 0 ∧
        rec.bits_per_weight = some (pyRound2 w))
    ∧ (rec.vram_required_gb = none ∨
        (vramBytesOf (raw.estimate.getD emptyEstimate) ≠ 0 ∧
         rec.vram_required_gb =
           some (pyRound2 ((vramBytesOf (raw.estimate.getD emptyEstimate) : ℚ) / 1024 ^ 3))))
    ∧ (rec.ram_required_gb = none ∨
        (ramBytesOf (raw.estimate.getD emptyEstimate) ≠ 0 ∧
         rec.ram_required_gb =
           some (pyRound2 ((ramBytesOf (raw.estimate.getD emptyEstimate) : ℚ) / 1024 ^ 3)))) := by
  obtain ⟨fo, hfo, rfl⟩ := extractMetadata_ok_elim raw rec h
  refine ⟨?_, ?_, ?_, ?_⟩
  · rw [normalizedRecord_file_size_gb]
    cases hb : (raw.metadata.getD emptyMetadata).fileSize with
    | none => exact Or.inl rfl
    | some b =>
      by_cases hz : b = 0
      · subst hz; simp
      · exact Or.inr ⟨b, rfl, hz, by simp [hz]⟩
  · rw [normalizedRecord_bits_per_weight]
    cases hw : (raw.metadata.getD emptyMetadata).bitsPerWeight with
    | none => exact Or.inl rfl
    | some w =>
      by_cases hz : w = 0
      · subst hz; simp
      · exact Or.inr ⟨w, rfl, hz, by simp [hz]⟩
  · rw [normalizedRecord_vram_required_gb]
    by_cases hz : vramBytesOf (raw.estimate.getD emptyEstimate) = 0
    · simp [hz]
    · exact Or.inr ⟨hz, by simp [hz]⟩
  · rw [normalizedRecord_ram_required_gb]
    by_cases hz : ramBytesOf (raw.estimate.getD emptyEstimate) = 0
    · simp [hz]
    · exact Or.inr ⟨hz, by simp [hz]⟩

/-- C6 amended witness: the amended invariant evaluated on the one-binary-
gigabyte output. -/
theorem gb_invariant_amended_witness :
    (normalizedRecord rawOneGb false).file_size_gb = none ∨ ∃ b : Int,
        (rawOneGb.metadata.getD emptyMetadata).fileSize = some b ∧ b ≠ 0 ∧
        (normalizedRecord rawOneGb false).file_size_gb =
          some (pyRound2 ((b : ℚ) / 1024 ^ 3)) :=
  (gb_invariant_amended rawOneGb (normalizedRecord rawOneGb false) rfl).1

/-- A raw output declaring a 6.7-billion parameter count. -/
def rawParams : RawToolOutput :=
  ⟨some ⟨none, none, some 6738415616, none, none, none⟩, none, none⟩

/-- C8: the display string of an integer parameter count p is the ".1f"
formatting of p/1e9 followed by "B" when p is at least one billion, the
".0f" formatting of p/1e6 followed by "M" when p is at least one million
but below one billion, and the decimal string of p otherwise; concretely
6738415616 gives "6.7B", 500000000 gives "500M" and 999 gives "999"; and
the record's parameters_str field is exactly this formatting. -/
theorem parameters_display_format (p : Int) (raw : RawToolOutput)
    (m : RawMetadata) :
    (1000000000 ≤ p → formatParams p = fmtFixed1 ((p : ℚ) / 1000000000) ++ "B")
    ∧ (1000000 ≤ p → p < 1000000000 →
        formatParams p = fmtFixed0 ((p : ℚ) / 1000000) ++ "M")
    ∧ (p < 1000000 → formatParams p = toString p)
    ∧ formatParams 6738415616 = "6.7B"
    ∧ formatParams 500000000 = "500M"
    ∧ formatParams 999 = "999"
    ∧ (∀ rec, raw.metadata = some m → m.parameters = some p →
        extractMetadata raw = .ok rec → rec.parameters_str = formatParams p) := by
  refine ⟨?_, ?_, ?_, ?_, ?_, ?_, ?_⟩
  · intro hp
    rw [formatParams, if_pos (by omega)]
  · intro h1 h2
    rw [formatParams, if_neg (by omega), if_pos (by omega)]
  · intro hp
    rw [formatParams, if_neg (by omega), if_neg (by omega)]
  · rw [formatParams, if_pos (by omega), fmtFixed1]
    have ht : roundHalfEven (((6738415616 : ℤ) : ℚ) / 1000000000 * 10) = 67 := by
      norm_num [roundHalfEven]
    rw [ht]
    norm_num
    rfl
  · rw [formatParams, if_neg (by omega), if_pos (by omega), fmtFixed0]
    have ht : roundHalfEven (((500000000 : ℤ) : ℚ) / 1000000) = 500 := by
      norm_num [roundHalfEven]
    rw [ht]
    rfl
  · rw [formatParams, if_neg (by omega), if_neg (by omega)]
    rfl
  · intro rec hraw hm h
    obtain ⟨fo, hfo, rfl⟩ := extractMetadata_ok_elim raw rec h
    rw [normalizedRecord_parameters_str, hraw]
    simp [hm]

/-- C8 witness: the concrete 6.7-billion parameter count formats to "6.7B"
and lands in the record's parameters_str field. -/
theorem parameters_display_format_witness :
    (normalizedRecord rawParams false).parameters_str = formatParams 6738415616
    ∧ formatParams 6738415616 = "6.7B" :=
  ⟨(parameters_display_format 6738415616 rawParams
      ⟨none, none, some 6738415616, none, none, none⟩).2.2.2.2.2.2
      (normalizedRecord rawParams false) rfl rfl rfl,
   (parameters_display_format 6738415616 rawParams
      ⟨none, none, some 6738415616, none, none, none⟩).2.2.2.1⟩

/-! ## Hub-backend equivalence (C9) -/

/-- C9: the two remote entry points build locator argument lists differing
only in the two flag strings (elements 0 and 2); the repo and the filename
are forwarded verbatim in both (no case normalization), and whenever the
environment reacts identically to the two argument lists, the two calls
return identical results for every repo, filename and retry count. -/
theorem hub_backends_equivalent (repo filename : String) (retries : ℕ)
    (wh wm : List String → ℕ → AttemptEnv)
    (h : wh (hfArgs repo filename) = wm (msArgs repo filename)) :
    parse_gguf_from_hf wh repo filename retries
        = parse_gguf_from_ms wm repo filename retries
    ∧ hfArgs repo filename = ["--hf-repo", repo, "--hf-file", filename]
    ∧ msArgs repo filename = ["--ms-repo", repo, "--ms-file", filename]
    ∧ (hfArgs repo filename)[1]? = some repo
    ∧ (msArgs repo filename)[1]? = some repo
    ∧ (hfArgs repo filename)[3]? = some filename
    ∧ (msArgs repo filename)[3]? = some filename := by
  refine ⟨?_, rfl, rfl, rfl, rfl, rfl, rfl⟩
  unfold parse_gguf_from_hf parse_gguf_from_ms
  rw [h]

/-- C9 witness: with environments that agree on the two argument lists,
the two backends' results coincide on a concrete locator. -/
theorem hub_backends_equivalent_witness :
    parse_gguf_from_hf (fun _ _ => envTransient) "org/model" "m.Q4_K_M.gguf" 3
      = parse_gguf_from_ms (fun _ _ => envTransient) "org/model" "m.Q4_K_M.gguf" 3 :=
  (hub_backends_equivalent "org/model" "m.Q4_K_M.gguf" 3
    (fun _ _ => envTransient) (fun _ _ => envTransient) rfl).1

/-! ## Enrichment merge semantics (C4) -/

/-- C4: with the parser module available, enrichment of a model whose file
listing is empty returns the record unchanged (outcome not_gguf); a picked
filename that is falsy (the empty string, caught by the `if not gguf_file:`
truthiness test of line 325) likewise returns the record unchanged; when a
truthy representative file is picked and extraction fails (result absent),
only the format flag and chosen filename are set (outcome
detected_unparsed); when extraction succeeds, the metadata fields and the
chosen filename are all merged (outcome enriched). -/
theorem enrich_merge_semantics (getFiles : String → List String)
    (world : List String → ℕ → AttemptEnv) (model : ModelDict) (source : Source) :
    (getFiles (repoIdOf model.url source) = [] →
      enrich_model_with_gguf_metadata true getFiles world model source = .ok model)
    ∧ (pick_representative_gguf_file (getFiles (repoIdOf model.url source)) = some "" →
      enrich_model_with_gguf_metadata true getFiles world model source = .ok model)
    ∧ (∀ f t, pick_representative_gguf_file (getFiles (repoIdOf model.url source)) = some f →
        f ≠ "" →
        run_parser_with_retry
            (world (locatorArgs source (repoIdOf model.url source) f)) MAX_RETRIES = .ok t →
        (t.result = none →
          enrich_model_with_gguf_metadata true getFiles world model source =
            .ok { model with is_gguf := some true, gguf_file := some f })
        ∧ (∀ md, t.result = some md →
          enrich_model_with_gguf_metadata true getFiles world model source =
            .ok { model with
              is_gguf := some true
              quantization := some md.quantization
              gguf_architecture := some md.architecture
              context_length := some md.context_length
              parameter_count := some md.parameters
              vram_required_gb := some md.vram_required_gb
              bits_per_weight := some md.bits_per_weight
              gguf_file := some f })) := by
  refine ⟨?_, ?_, ?_⟩
  · intro hempty
    unfold enrich_model_with_gguf_metadata
    simp [hempty]
  · intro hpick
    have hne : getFiles (repoIdOf model.url source) ≠ [] := by
      intro hnil
      rw [hnil] at hpick
      exact Option.noConfusion hpick
    unfold enrich_model_with_gguf_metadata
    rw [if_neg (show ¬((!true) = true) by decide)]
    simp only [List.isEmpty_eq_false_iff_exists_mem.mpr
      (List.exists_mem_of_ne_nil _ hne), ite_false, hpick]
    simp
  · intro f t hpick hf hretry
    have hne : getFiles (repoIdOf model.url source) ≠ [] := by
      intro hnil
      rw [hnil] at hpick
      exact Option.noConfusion hpick
    constructor
    · intro hnone
      unfold enrich_model_with_gguf_metadata
      rw [if_neg (show ¬((!true) = true) by decide)]
      simp only [List.isEmpty_eq_false_iff_exists_mem.mpr
        (List.exists_mem_of_ne_nil _ hne), ite_false, hpick, hf, hretry, hnone]
      simp
    · intro md hsome
      unfold enrich_model_with_gguf_metadata
      rw [if_neg (show ¬((!true) = true) by decide)]
      simp only [List.isEmpty_eq_false_iff_exists_mem.mpr
        (List.exists_mem_of_ne_nil _ hne), ite_false, hpick, hf, hretry, hsome]
      simp

/-- A model dictionary with none of the GGUF keys set. -/
def modelPlain : ModelDict :=
  ⟨"u", none, none, none, none, none, none, none, none, []⟩

/-- C4 witness: with an empty listing the record is unchanged; with a
listing containing only the empty filename the record is also unchanged;
and with one nonempty GGUF filename and an extraction that exhausts its
retries transiently, only the format flag and chosen filename are added. -/
theorem enrich_merge_semantics_witness :
    enrich_model_with_gguf_metadata true (fun _ => []) (fun _ _ => envTransient)
        modelPlain .huggingface = .ok modelPlain
    ∧ enrich_model_with_gguf_metadata true (fun _ => [""]) (fun _ _ => envTransient)
        modelPlain .huggingface = .ok modelPlain
    ∧ enrich_model_with_gguf_metadata true (fun _ => ["a.gguf"]) (fun _ _ => envTransient)
        modelPlain .huggingface =
      .ok { modelPlain with is_gguf := some true, gguf_file := some "a.gguf" } :=
  ⟨(enrich_merge_semantics (fun _ => []) (fun _ _ => envTransient)
      modelPlain .huggingface).1 rfl,
   (enrich_merge_semantics (fun _ => [""]) (fun _ _ => envTransient)
      modelPlain .huggingface).2.1 rfl,
   ((enrich_merge_semantics (fun _ => ["a.gguf"]) (fun _ _ => envTransient)
      modelPlain .huggingface).2.2 "a.gguf" ⟨none, 3, [2, 4]⟩ rfl (by decide) rfl).1 rfl⟩
